import Mathlib

/-!
Verification of the `ss` SOCKS5 proxy: a shallow embedding of the RC4
stream cipher (`src/rc4.rs`), the encrypted stream adapters
(`src/stream.rs`), and the SOCKS5 request handling / relay cleanup logic
(`src/main.rs`), together with theorems settling the specification's
claims about them.

Bytes held in cipher state are modelled as `Fin 256` (Rust `u8`, whose
wrapping arithmetic is exactly `Fin 256` arithmetic); byte buffers moving
through the streams are `List Nat` and XOR is `Nat.xor`.  The external
MD5 hash (the `md5` crate) is kept abstract as a function parameter of
type `HashFn`.
-/

/-- Bytes of the cipher state: Rust `u8`. -/
abbrev Byte := Fin 256

/-- Truncate a natural number to a byte, as Rust `as u8` / wrapping ops do. -/
def Byte.ofNat (n : Nat) : Byte := ⟨n % 256, Nat.mod_lt _ (by norm_num)⟩

/-- The external MD5 hash (`md5` crate), kept abstract: maps a byte
sequence to its digest. -/
abbrev HashFn := List Nat → List Nat

/-- `rc4.rs::compute`: hash `data` with MD5. -/
def compute (md5 : HashFn) (data : List Nat) : List Nat := md5 data

/-- `rc4.rs::generate_key`: stretch `data` by iterative hashing to cover
`key_len` bytes.  `count = ceil(key_len / 16)`; the loop body appends
`md5(previous_16_bytes ++ data)`. -/
def generate_key (md5 : HashFn) (data : List Nat) (key_len : Nat) : List Nat :=
  let count := (key_len + 15) / 16
  (List.range (count - 1)).foldl
    (fun key t => key ++ compute md5 ((key.drop (16 * t)).take 16 ++ data))
    (compute md5 data)

/-- `rc4.rs::generate_rc4_key`: the cipher key is
`md5(generate_key(password, 16) ++ iv)`. -/
def generate_rc4_key (md5 : HashFn) (password iv : List Nat) : List Nat :=
  compute md5 (generate_key md5 password 16 ++ iv)

/-- `rc4.rs::Rc4`: the stream cipher state. -/
structure Rc4 where
  i : Byte
  j : Byte
  state : Byte → Byte
  password : List Nat
  init : Bool

/-- `Rc4::new`: fresh cipher holding the password, zeroed state, not
initialized. -/
def Rc4.new (password : List Nat) : Rc4 :=
  { i := 0, j := 0, state := fun _ => 0, password := password, init := false }

/-- `<[u8; 256]>::swap(a, b)` on a function-represented state array:
exchange the entries at positions `a` and `b`. -/
def swapFn (st : Byte → Byte) (a b : Byte) : Byte → Byte :=
  fun k => if k = a then st b else if k = b then st a else st k

/-- One iteration of the key-scheduling loop of `Rc4::init`:
`j = j + state[i] + key[i % key.len()]` (wrapping) then `state.swap(i, j)`. -/
def ksaStep (key : List Nat) (acc : (Byte → Byte) × Byte) (i : Nat) :
    (Byte → Byte) × Byte :=
  let j := acc.2 + acc.1 (Byte.ofNat i) + Byte.ofNat (key.getD (i % key.length) 0)
  (swapFn acc.1 (Byte.ofNat i) j, j)

/-- `Rc4::init` (named `ivInit` here because the Rust struct field `init`
already claims that name): derive the key from password and IV, reset the
state to the identity permutation, run the 256-step key schedule, and mark
the cipher initialized.  `i` and `j` are left as they were. -/
def Rc4.ivInit (md5 : HashFn) (rc : Rc4) (iv : List Nat) : Rc4 :=
  let key := generate_rc4_key md5 rc.password iv
  let p := (List.range 256).foldl (ksaStep key) (fun k => k, 0)
  { rc with state := p.1, init := true }

/-- `Rc4::next_byte`: advance `i` and `j` (wrapping), swap `state[i]` and
`state[j]`, and return `state[state[i] + state[j]]` read from the
post-swap state. -/
def Rc4.next_byte (rc : Rc4) : Rc4 × Byte :=
  let i := rc.i + 1
  let j := rc.j + rc.state i
  let st := swapFn rc.state i j
  ({ rc with i := i, j := j, state := st }, st (st i + st j))

/-- `Rc4::crypt_inplace`: XOR each buffer byte with the next keystream
byte, threading the cipher state left to right. -/
def Rc4.crypt_inplace : Rc4 → List Nat → Rc4 × List Nat
  | rc, [] => (rc, [])
  | rc, b :: rest =>
    let step := rc.next_byte
    let tail := step.1.crypt_inplace rest
    (tail.1, (b ^^^ step.2.val) :: tail.2)

/-!  Encrypted stream adapters (`src/stream.rs`).

The underlying socket is modelled explicitly: for writers, the bytes
handed to the single underlying `write` call are returned (`writeData`),
and where the underlying `write`'s outcome matters it is a parameter
`uw : List Nat → Except Unit Nat` reporting a count or an I/O error; for
readers, the underlying endpoint is a `List Nat` of the bytes still
available before EOF, `read_exact` fails when fewer bytes remain than
requested, and a plain `read` returns up to the requested count.
`generate_iv` draws from the thread RNG, so the fresh IV is a parameter. -/

/-- `stream.rs::CryptoWrite`: encrypting writer; the wrapped endpoint is
modelled outside the structure. -/
structure CryptoWrite where
  enc : Rc4

/-- The cipher-state update and the byte sequence handed to the single
underlying `write` call performed by `CryptoWrite::write` (lines 71-90 of
`stream.rs`): on an uninitialized cipher, initialize with the fresh
`iv` and emit `iv ++ encrypted(buf)`; otherwise emit `encrypted(buf)`. -/
def CryptoWrite.writeData (iv : List Nat) (md5 : HashFn) (w : CryptoWrite)
    (buf : List Nat) : CryptoWrite × List Nat :=
  let enc1 := if w.enc.init then w.enc else w.enc.ivInit md5 iv
  let ivPrefix := if w.enc.init then ([] : List Nat) else iv
  let t := enc1.crypt_inplace buf
  (⟨t.1⟩, ivPrefix ++ t.2)

/-- `CryptoWrite::write`: build the IV-plus-ciphertext message, hand it to
one underlying `write` call `uw`, propagate its error, and otherwise
return `Ok(n)` with whatever count `uw` reported. -/
def CryptoWrite.write (iv : List Nat) (md5 : HashFn) (w : CryptoWrite)
    (buf : List Nat) (uw : List Nat → Except Unit Nat) :
    Except Unit (CryptoWrite × Nat) :=
  let wd := w.writeData iv md5 buf
  match uw wd.2 with
  | .error e => .error e
  | .ok n => .ok (wd.1, n)

/-- `stream.rs::Rc4Writer`: async encrypting writer with an optional
cipher (`inner : Option Rc4`); `None` is the transparent passthrough. -/
def Rc4Writer.writeData (iv : List Nat) (md5 : HashFn) (inner : Option Rc4)
    (buf : List Nat) : Option Rc4 × List Nat :=
  match inner with
  | some rc =>
    if rc.init then
      let t := rc.crypt_inplace buf
      (some t.1, t.2)
    else
      let t := (rc.ivInit md5 iv).crypt_inplace buf
      (some t.1, iv ++ t.2)
  | none => (none, buf)

/-- `stream.rs::CryptoRead`: decrypting reader. -/
structure CryptoRead where
  dec : Rc4

/-- `CryptoRead::read` (lines 32-48 of `stream.rs`): on an uninitialized
cipher, `read_exact` a 16-byte IV (an I/O error if the endpoint holds
fewer than 16 bytes) and initialize with it; then read up to `bufLen`
bytes, decrypt exactly the bytes read when the count is positive, and
return them with the rest of the endpoint's bytes. -/
def CryptoRead.read (md5 : HashFn) (r : CryptoRead) (stream : List Nat)
    (bufLen : Nat) : Except Unit (CryptoRead × List Nat × List Nat) :=
  let step1 : Except Unit (Rc4 × List Nat) :=
    if r.dec.init then .ok (r.dec, stream)
    else if stream.length < 16 then .error ()
    else .ok (r.dec.ivInit md5 (stream.take 16), stream.drop 16)
  match step1 with
  | .error e => .error e
  | .ok (dec1, rest) =>
    let n := min bufLen rest.length
    let t := if 0 < n then dec1.crypt_inplace (rest.take n) else (dec1, rest.take n)
    .ok (⟨t.1⟩, t.2, rest.drop n)

/-- `stream.rs::Rc4Reader::read` (lines 159-175): like `CryptoRead::read`
but the cipher is optional; with `None` (or an already initialized
cipher) no IV prefix is consumed, and with `None` the payload passes
through undecrypted. -/
def Rc4Reader.read (md5 : HashFn) (inner : Option Rc4) (stream : List Nat)
    (bufLen : Nat) : Except Unit (Option Rc4 × List Nat × List Nat) :=
  let step1 : Except Unit (Option Rc4 × List Nat) :=
    match inner with
    | some rc =>
      if rc.init then .ok (some rc, stream)
      else if stream.length < 16 then .error ()
      else .ok (some (rc.ivInit md5 (stream.take 16)), stream.drop 16)
    | none => .ok (none, stream)
  match step1 with
  | .error e => .error e
  | .ok (dec1, rest) =>
    let len := min bufLen rest.length
    if len ≠ 0 then
      match dec1 with
      | some rc =>
        let t := rc.crypt_inplace (rest.take len)
        .ok (some t.1, t.2, rest.drop len)
      | none => .ok (none, rest.take len, rest.drop len)
    else .ok (dec1, rest.take len, rest.drop len)

/-!  SOCKS5 request handling and relay cleanup (`src/main.rs`).

`connect` (lines 80-189) is embedded up to the point where the session
enters proxying: its client-visible effect is the bytes written back to
the client plus either an error return, a panic (the `unwrap` on an empty
resolution result), or the resolved address and raw encoding carried into
the proxy phase.  Name resolution (`to_socket_addrs`) is external, so it
is a parameter returning an I/O error or the list of resolved endpoints. -/

/-- Destination addresses as built by `connect`. -/
inductive IpAddr
  | v4 (a b c d : Nat)
  | v6 (a b c d e f g h : Nat)
deriving DecidableEq

/-- A resolved socket endpoint. -/
structure SockAddr where
  ip : IpAddr
  port : Nat
deriving DecidableEq

/-- The distinct error returns of `connect`. -/
inductive ConnectErr
  | notSupportedVer
  | notSupportedCmd
  | notSupportedAtype
  | ioErr
  | resolveIoErr
deriving DecidableEq

/-- How the `connect` call ends, as seen past the reply write: an error
return, a panic, or entry into the proxy phase carrying the resolved
address and the raw address encoding. -/
inductive SessionEnd
  | err (e : ConnectErr)
  | panicked
  | proxied (addr : SockAddr) (raw : List Nat)
deriving DecidableEq

/-- The client-visible outcome of `connect`: the bytes written back to the
client socket during request handling, and how the call ended. -/
structure ConnectResult where
  clientOut : List Nat
  outcome : SessionEnd
deriving DecidableEq

/-- `Read::read_exact` on a byte stream: fail when fewer than `n` bytes
remain, else split off exactly `n`. -/
def readExact (n : Nat) (s : List Nat) : Except Unit (List Nat × List Nat) :=
  if s.length < n then .error () else .ok (s.take n, s.drop n)

/-- Big-endian `u16` from two bytes, as `read_u16::<BigEndian>`. -/
def beU16 (hi lo : Nat) : Nat := hi * 256 + lo

/-- The fixed SOCKS5 success reply `connect` writes at line 136. -/
def socksReply : List Nat := [5, 0, 0, 1, 0, 0, 0, 0, 0, 0]

/-- `main.rs::connect`, lines 81-143: read the 4-byte request header,
reject a bad version or command before any reply, parse the address by
type (errors raised by `?` inside the arms — short reads, resolver I/O
failures — also return before the reply; an empty resolution list panics
on `unwrap`), then write the fixed success reply and only afterwards
propagate a "not supported atype" error. -/
def connectParse (resolve : List Nat → Except Unit (List SockAddr))
    (input : List Nat) : ConnectResult :=
  match readExact 4 input with
  | .error _ => ⟨[], .err .ioErr⟩
  | .ok (hdr, rest) =>
    let ver := hdr.getD 0 0
    let cmd := hdr.getD 1 0
    let atype := hdr.getD 3 0
    if ver ≠ 5 then ⟨[], .err .notSupportedVer⟩
    else if cmd ≠ 1 then ⟨[], .err .notSupportedCmd⟩
    else if atype = 1 then
      match readExact 4 rest with
      | .error _ => ⟨[], .err .ioErr⟩
      | .ok (a, rest2) =>
        match readExact 2 rest2 with
        | .error _ => ⟨[], .err .ioErr⟩
        | .ok (p, _) =>
          let addr : SockAddr :=
            ⟨.v4 (a.getD 0 0) (a.getD 1 0) (a.getD 2 0) (a.getD 3 0),
              beU16 (p.getD 0 0) (p.getD 1 0)⟩
          ⟨socksReply, .proxied addr (atype :: (a ++ p))⟩
    else if atype = 4 then
      match readExact 18 rest with
      | .error _ => ⟨[], .err .ioErr⟩
      | .ok (b, _) =>
        let addr : SockAddr :=
          ⟨.v6 (beU16 (b.getD 0 0) (b.getD 1 0)) (beU16 (b.getD 2 0) (b.getD 3 0))
              (beU16 (b.getD 4 0) (b.getD 5 0)) (beU16 (b.getD 6 0) (b.getD 7 0))
              (beU16 (b.getD 8 0) (b.getD 9 0)) (beU16 (b.getD 10 0) (b.getD 11 0))
              (beU16 (b.getD 12 0) (b.getD 13 0)) (beU16 (b.getD 14 0) (b.getD 15 0)),
            beU16 (b.getD 16 0) (b.getD 17 0)⟩
        ⟨socksReply, .proxied addr (atype :: b)⟩
    else if atype = 3 then
      match readExact 1 rest with
      | .error _ => ⟨[], .err .ioErr⟩
      | .ok (lb, rest2) =>
        let hostLen := lb.getD 0 0
        match readExact hostLen rest2 with
        | .error _ => ⟨[], .err .ioErr⟩
        | .ok (name, _) =>
          match resolve name with
          | .error _ => ⟨[], .err .resolveIoErr⟩
          | .ok [] => ⟨[], .panicked⟩
          | .ok (addr :: _) => ⟨socksReply, .proxied addr (atype :: (lb ++ name))⟩
    else
      ⟨socksReply, .err .notSupportedAtype⟩

/-- Which sockets a finished copy loop shuts down (`Shutdown::Both` on
each), from the two thread bodies at `main.rs` lines 161-183. -/
structure ShutdownActions where
  connShutdown : Bool
  streamShutdown : Bool
deriving DecidableEq

/-- The cleanup a copy-loop thread performs when `io::copy` returns
(`main.rs` lines 161-170 and 173-182, identical shape in both threads):
a clean copy result only logs; an error shuts down both the upstream
connection and the client stream. -/
def copyLoopEnd (result : Except Unit Nat) : ShutdownActions :=
  match result with
  | .ok _ => ⟨false, false⟩
  | .error _ => ⟨true, true⟩

/-- A sequence of cipher operations performed after initialization: the
`next_byte` and `crypt_inplace` calls of claim C8. -/
inductive Rc4Op
  | next
  | crypt (buf : List Nat)

/-- Run a sequence of cipher operations, keeping only the state. -/
def Rc4.applyOps : Rc4 → List Rc4Op → Rc4
  | rc, [] => rc
  | rc, .next :: ops => (rc.next_byte).1.applyOps ops
  | rc, .crypt b :: ops => ((rc.crypt_inplace b).1).applyOps ops

/-!  Helper lemmas about the cipher. -/

/-- The state update of `swap` is composition with the transposition. -/
theorem swapFn_eq_comp (st : Byte → Byte) (a b : Byte) :
    swapFn st a b = st ∘ (Equiv.swap a b) := by
  funext k
  simp only [swapFn, Function.comp_apply, Equiv.swap_apply_def]
  split_ifs <;> rfl

/-- Swapping two entries preserves bijectivity of the state array. -/
theorem swapFn_bijective {st : Byte → Byte} (h : Function.Bijective st)
    (a b : Byte) : Function.Bijective (swapFn st a b) := by
  rw [swapFn_eq_comp]
  exact h.comp (Equiv.swap a b).bijective

/-- The key-scheduling fold preserves bijectivity of the state array. -/
theorem ksa_foldl_bijective (key : List Nat) (l : List Nat)
    (acc : (Byte → Byte) × Byte) (h : Function.Bijective acc.1) :
    Function.Bijective ((l.foldl (ksaStep key) acc).1) := by
  induction l generalizing acc with
  | nil => exact h
  | cons x xs ih => exact ih _ (swapFn_bijective h _ _)

/-- After `init`, the state array is a bijection on bytes. -/
theorem Rc4.ivInit_bijective (md5 : HashFn) (rc : Rc4) (iv : List Nat) :
    Function.Bijective (rc.ivInit md5 iv).state :=
  ksa_foldl_bijective _ _ _ Function.bijective_id

/-- `next_byte` preserves bijectivity of the state array. -/
theorem Rc4.next_byte_bijective {rc : Rc4} (h : Function.Bijective rc.state) :
    Function.Bijective (rc.next_byte).1.state :=
  swapFn_bijective h _ _

/-- `crypt_inplace` preserves bijectivity of the state array. -/
theorem Rc4.crypt_inplace_bijective {rc : Rc4} (h : Function.Bijective rc.state) :
    ∀ b : List Nat, Function.Bijective ((rc.crypt_inplace b).1).state := by
  intro b
  induction b generalizing rc with
  | nil => exact h
  | cons x rest ih => exact ih (Rc4.next_byte_bijective h)

/-- Any sequence of `next_byte` / `crypt_inplace` calls preserves
bijectivity of the state array. -/
theorem Rc4.applyOps_bijective {rc : Rc4} (h : Function.Bijective rc.state) :
    ∀ ops : List Rc4Op, Function.Bijective (rc.applyOps ops).state := by
  intro ops
  induction ops generalizing rc with
  | nil => exact h
  | cons op ops ih =>
    cases op with
    | next => exact ih (Rc4.next_byte_bijective h)
    | crypt b => exact ih (Rc4.crypt_inplace_bijective h b)

/-- `next_byte` leaves the `init` flag unchanged. -/
theorem Rc4.next_byte_init (rc : Rc4) : (rc.next_byte).1.init = rc.init := rfl

/-- `crypt_inplace` leaves the `init` flag unchanged. -/
theorem Rc4.crypt_inplace_init (rc : Rc4) (b : List Nat) :
    ((rc.crypt_inplace b).1).init = rc.init := by
  induction b generalizing rc with
  | nil => rfl
  | cons x rest ih => exact ih _

/-- `init` sets the `init` flag. -/
theorem Rc4.ivInit_init (md5 : HashFn) (rc : Rc4) (iv : List Nat) :
    (rc.ivInit md5 iv).init = true := rfl

/-- `crypt_inplace` preserves the buffer length. -/
theorem Rc4.crypt_inplace_length (rc : Rc4) (b : List Nat) :
    ((rc.crypt_inplace b).2).length = b.length := by
  induction b generalizing rc with
  | nil => rfl
  | cons x rest ih => simp [Rc4.crypt_inplace, ih]

/-- Running `crypt_inplace` twice from the same cipher state restores the
buffer: the two runs generate identical keystreams and XOR is
self-inverse. -/
theorem Rc4.crypt_inplace_round_trip (rc : Rc4) (b : List Nat) :
    (rc.crypt_inplace ((rc.crypt_inplace b).2)).2 = b := by
  induction b generalizing rc with
  | nil => rfl
  | cons x rest ih =>
    simp only [Rc4.crypt_inplace]
    rw [Nat.xor_cancel_right, ih]

/-- Claim C5: for every byte sequence `b`, password and IV, initializing
two cipher instances with the same password and IV and applying
`crypt_inplace` with the second instance to the output of `crypt_inplace`
with the first yields `b` again. -/
theorem C5_cipher_round_trip (md5 : HashFn) (password iv b : List Nat) :
    (((Rc4.new password).ivInit md5 iv).crypt_inplace
        ((((Rc4.new password).ivInit md5 iv).crypt_inplace b).2)).2 = b :=
  Rc4.crypt_inplace_round_trip _ b

/-- Claim C8: after `init` the cipher's state array is a permutation of
the 256 byte values, the property is preserved by every subsequent
`next_byte` / `crypt_inplace` call, and the indices `i` and `j` wrap
modulo 256 on every increment. -/
theorem C8_state_permutation (md5 : HashFn) (password iv : List Nat)
    (ops : List Rc4Op) :
    Function.Bijective ((((Rc4.new password).ivInit md5 iv).applyOps ops).state) ∧
    (∀ rc : Rc4, (rc.next_byte).1.i.val = (rc.i.val + 1) % 256 ∧
      (rc.next_byte).1.j.val = (rc.j.val + (rc.state (rc.i + 1)).val) % 256) := by
  refine ⟨Rc4.applyOps_bijective (Rc4.ivInit_bijective md5 _ iv) ops, fun rc => ⟨?_, ?_⟩⟩
  · show ((rc.i + 1 : Byte)).val = (rc.i.val + 1) % 256
    rw [Fin.val_add, Fin.val_one]
  · show ((rc.j + rc.state (rc.i + 1) : Byte)).val = _
    rw [Fin.val_add]

/-- On an uninitialized cipher, `CryptoWrite::write` hands the underlying
endpoint the IV followed by the encrypted payload. -/
theorem CryptoWrite.writeData_fresh (iv : List Nat) (md5 : HashFn)
    (w : CryptoWrite) (buf : List Nat) (h : w.enc.init = false) :
    (w.writeData iv md5 buf).2 = iv ++ ((w.enc.ivInit md5 iv).crypt_inplace buf).2 := by
  simp [CryptoWrite.writeData, h]

/-- On an uninitialized cipher, the message handed to the underlying
write is the IV length plus the payload length. -/
theorem CryptoWrite.writeData_length_fresh (iv : List Nat) (md5 : HashFn)
    (w : CryptoWrite) (buf : List Nat) (h : w.enc.init = false) :
    ((w.writeData iv md5 buf).2).length = iv.length + buf.length := by
  simp [CryptoWrite.writeData, h, Rc4.crypt_inplace_length]

/-- On an initialized cipher, the message handed to the underlying write
is exactly the payload length. -/
theorem CryptoWrite.writeData_length_inited (iv : List Nat) (md5 : HashFn)
    (w : CryptoWrite) (buf : List Nat) (h : w.enc.init = true) :
    ((w.writeData iv md5 buf).2).length = buf.length := by
  simp [CryptoWrite.writeData, h, Rc4.crypt_inplace_length]

/-- After any `CryptoWrite::write`, the cipher is initialized, so every
later call takes the subsequent-write path. -/
theorem CryptoWrite.writeData_init (iv : List Nat) (md5 : HashFn)
    (w : CryptoWrite) (buf : List Nat) :
    ((w.writeData iv md5 buf).1).enc.init = true := by
  cases hw : w.enc.init with
  | false => simp [CryptoWrite.writeData, hw, Rc4.crypt_inplace_init, Rc4.ivInit_init]
  | true => simp [CryptoWrite.writeData, hw, Rc4.crypt_inplace_init]

/-- `Rc4Writer::write` with a fresh cipher hands the endpoint
`iv ++ encrypted(buf)`. -/
theorem Rc4Writer.writeData_fresh_length (iv : List Nat) (md5 : HashFn)
    (rc : Rc4) (buf : List Nat) (h : rc.init = false) :
    ((Rc4Writer.writeData iv md5 (some rc) buf).2).length = iv.length + buf.length := by
  simp [Rc4Writer.writeData, h, Rc4.crypt_inplace_length]

/-- `Rc4Writer::write` with an initialized cipher hands the endpoint the
encrypted payload alone. -/
theorem Rc4Writer.writeData_inited_length (iv : List Nat) (md5 : HashFn)
    (rc : Rc4) (buf : List Nat) (h : rc.init = true) :
    ((Rc4Writer.writeData iv md5 (some rc) buf).2).length = buf.length := by
  simp [Rc4Writer.writeData, h, Rc4.crypt_inplace_length]

/-- Claim C2: with a cipher present, the first write hands the underlying
endpoint exactly `16 + len(payload)` bytes — the 16-byte IV followed by
the encrypted payload — and every subsequent write (the cipher being
initialized from the first call on) hands it exactly `len(payload)`
bytes; for both `CryptoWrite` and `Rc4Writer`. -/
theorem C2_writer_emission_lengths (iv : List Nat) (md5 : HashFn)
    (buf : List Nat) (hiv : iv.length = 16) :
    (∀ w : CryptoWrite, w.enc.init = false →
      (w.writeData iv md5 buf).2 = iv ++ ((w.enc.ivInit md5 iv).crypt_inplace buf).2 ∧
      ((w.writeData iv md5 buf).2).length = 16 + buf.length) ∧
    (∀ w : CryptoWrite, w.enc.init = true →
      ((w.writeData iv md5 buf).2).length = buf.length) ∧
    (∀ w : CryptoWrite, ((w.writeData iv md5 buf).1).enc.init = true) ∧
    (∀ rc : Rc4, rc.init = false →
      ((Rc4Writer.writeData iv md5 (some rc) buf).2).length = 16 + buf.length) ∧
    (∀ rc : Rc4, rc.init = true →
      ((Rc4Writer.writeData iv md5 (some rc) buf).2).length = buf.length) := by
  refine ⟨fun w h => ⟨CryptoWrite.writeData_fresh iv md5 w buf h, ?_⟩,
    fun w h => CryptoWrite.writeData_length_inited iv md5 w buf h,
    fun w => CryptoWrite.writeData_init iv md5 w buf,
    fun rc h => ?_, fun rc h => Rc4Writer.writeData_inited_length iv md5 rc buf h⟩
  · rw [CryptoWrite.writeData_length_fresh iv md5 w buf h, hiv]
  · rw [Rc4Writer.writeData_fresh_length iv md5 rc buf h, hiv]

/-- Witness for C2: a fresh writer with a 16-byte IV and a one-byte
payload hands the endpoint 17 bytes. -/
theorem C2_writer_emission_lengths_witness :
    (List.replicate 16 (0 : Nat)).length = 16 ∧
    (((CryptoWrite.mk (Rc4.new [])).writeData (List.replicate 16 0)
        (fun _ => []) [7]).2).length = 16 + 1 := by
  refine ⟨by decide, ?_⟩
  have h := (C2_writer_emission_lengths (List.replicate 16 0) (fun _ => []) [7]
    (by decide)).1 (CryptoWrite.mk (Rc4.new [])) rfl
  simpa using h.2

/-- Claim C3, counterexample: with an underlying write that reports a
count of 0 although a 17-byte message was requested, `CryptoWrite::write`
returns `Ok(0)` — a short underlying write does not surface as an error. -/
theorem C3_short_write_not_error :
    (CryptoWrite.mk (Rc4.new [])).write (List.replicate 16 0) (fun _ => []) [7]
        (fun _ => .ok 0) =
      .ok (((CryptoWrite.mk (Rc4.new [])).writeData (List.replicate 16 0)
        (fun _ => []) [7]).1, 0) ∧
    (CryptoWrite.mk (Rc4.new [])).write (List.replicate 16 0) (fun _ => []) [7]
        (fun _ => .ok 0) ≠ .error () ∧
    (((CryptoWrite.mk (Rc4.new [])).writeData (List.replicate 16 0)
        (fun _ => []) [7]).2).length = 17 := by
  refine ⟨rfl, by simp [CryptoWrite.write], ?_⟩
  simpa using CryptoWrite.writeData_length_fresh (List.replicate 16 0)
    (fun _ => []) (CryptoWrite.mk (Rc4.new [])) [7] rfl

/-- Claim C3, amended: a failing underlying write surfaces as an I/O
error, but a short underlying write is not detected — the call returns
`Ok` with whatever count the underlying write reported. -/
theorem C3_underlying_error_propagates (iv : List Nat) (md5 : HashFn)
    (w : CryptoWrite) (buf : List Nat) (uw : List Nat → Except Unit Nat) :
    (uw ((w.writeData iv md5 buf).2) = .error () →
      w.write iv md5 buf uw = .error ()) ∧
    (∀ n : Nat, uw ((w.writeData iv md5 buf).2) = .ok n →
      w.write iv md5 buf uw = .ok ((w.writeData iv md5 buf).1, n)) := by
  constructor
  · intro h
    simp [CryptoWrite.write, h]
  · intro n h
    simp [CryptoWrite.write, h]

/-- Witness for C3 (amended): a failing underlying write makes the call
return the error. -/
theorem C3_underlying_error_propagates_witness :
    (CryptoWrite.mk (Rc4.new [])).write [] (fun _ => []) []
      (fun _ => .error ()) = .error () :=
  (C3_underlying_error_propagates [] (fun _ => []) (CryptoWrite.mk (Rc4.new []))
    [] (fun _ => .error ())).1 rfl

/-- Claim C10: `CryptoWrite::write` returns `Ok(n)` with exactly the
count `n` reported by the single underlying write of the
IV-plus-ciphertext message; with a compliant endpoint the first call on a
fresh writer returns `16 + len(buf)`, which exceeds `len(buf)`. -/
theorem C10_write_count_from_underlying (iv : List Nat) (md5 : HashFn)
    (password buf : List Nat) (hiv : iv.length = 16) :
    (∀ (w : CryptoWrite) (uw : List Nat → Except Unit Nat) (n : Nat),
      uw ((w.writeData iv md5 buf).2) = .ok n →
      w.write iv md5 buf uw = .ok ((w.writeData iv md5 buf).1, n)) ∧
    (CryptoWrite.mk (Rc4.new password)).write iv md5 buf (fun d => .ok d.length) =
      .ok (((CryptoWrite.mk (Rc4.new password)).writeData iv md5 buf).1,
        16 + buf.length) ∧
    buf.length < 16 + buf.length := by
  refine ⟨fun w uw n h => by simp [CryptoWrite.write, h], ?_, by omega⟩
  have h := CryptoWrite.writeData_length_fresh iv md5
    (CryptoWrite.mk (Rc4.new password)) buf rfl
  simp [CryptoWrite.write, h, hiv]

/-- Witness for C10: on a fresh writer with a 16-byte IV, a one-byte
payload and a fully compliant endpoint, `write` returns the count 17. -/
theorem C10_write_count_from_underlying_witness :
    (List.replicate 16 (0 : Nat)).length = 16 ∧
    (CryptoWrite.mk (Rc4.new [])).write (List.replicate 16 0) (fun _ => []) [7]
        (fun d => .ok d.length) =
      .ok (((CryptoWrite.mk (Rc4.new [])).writeData (List.replicate 16 0)
        (fun _ => []) [7]).1, 16 + 1) := by
  refine ⟨by decide, ?_⟩
  have h := (C10_write_count_from_underlying (List.replicate 16 0) (fun _ => [])
    [] [7] (by decide)).2.1
  simpa using h

/-- The reader's guarded decrypt step equals an unconditional
`crypt_inplace` call: when zero bytes were read, decrypting the empty
prefix is a no-op. -/
theorem read_tail_eq (dec1 : Rc4) (rest : List Nat) (n : Nat) :
    (if 0 < n then dec1.crypt_inplace (rest.take n) else (dec1, rest.take n)) =
      dec1.crypt_inplace (rest.take n) := by
  rcases Nat.eq_zero_or_pos n with h | h
  · subst h
    simp [Rc4.crypt_inplace]
  · rw [if_pos h]

/-- Same reduction for `Rc4Reader::read`: a zero-length read skips the
decrypt call, which is already a no-op on the empty prefix. -/
theorem reader_tail_eq (rc : Rc4) (rest : List Nat) (len : Nat) :
    (if len ≠ 0 then
        (.ok (some (rc.crypt_inplace (rest.take len)).1,
          (rc.crypt_inplace (rest.take len)).2, rest.drop len) :
          Except Unit (Option Rc4 × List Nat × List Nat))
      else .ok (some rc, rest.take len, rest.drop len)) =
      .ok (some (rc.crypt_inplace (rest.take len)).1,
        (rc.crypt_inplace (rest.take len)).2, rest.drop len) := by
  rcases Nat.eq_zero_or_pos len with h | h
  · subst h
    simp [Rc4.crypt_inplace]
  · rw [if_pos (Nat.pos_iff_ne_zero.mp h)]

/-- Claim C4: with a cipher present and not yet initialized, the reader's
first call consumes exactly the first 16 endpoint bytes as the IV before
any payload byte is decrypted; if the endpoint closes before 16 IV bytes
arrive the call returns an I/O error rather than a zero-length result;
after the IV it decrypts exactly the bytes actually read and returns that
count, a count of 0 signaling clean EOF.  Stated for both `CryptoRead`
and `Rc4Reader`. -/
theorem C4_reader_iv_handling (md5 : HashFn) (stream : List Nat) (bufLen : Nat) :
    (∀ r : CryptoRead, r.dec.init = false → stream.length < 16 →
      r.read md5 stream bufLen = .error ()) ∧
    (∀ r : CryptoRead, r.dec.init = false → 16 ≤ stream.length →
      r.read md5 stream bufLen =
        .ok (⟨((r.dec.ivInit md5 (stream.take 16)).crypt_inplace
            ((stream.drop 16).take (min bufLen (stream.drop 16).length))).1⟩,
          ((r.dec.ivInit md5 (stream.take 16)).crypt_inplace
            ((stream.drop 16).take (min bufLen (stream.drop 16).length))).2,
          (stream.drop 16).drop (min bufLen (stream.drop 16).length)) ∧
      (((r.dec.ivInit md5 (stream.take 16)).crypt_inplace
          ((stream.drop 16).take (min bufLen (stream.drop 16).length))).2).length =
        min bufLen (stream.drop 16).length) ∧
    (∀ r : CryptoRead, r.dec.init = true →
      r.read md5 [] bufLen = .ok (⟨r.dec⟩, [], [])) ∧
    (∀ rc : Rc4, rc.init = false → stream.length < 16 →
      Rc4Reader.read md5 (some rc) stream bufLen = .error ()) ∧
    (∀ rc : Rc4, rc.init = false → 16 ≤ stream.length →
      Rc4Reader.read md5 (some rc) stream bufLen =
        .ok (some ((rc.ivInit md5 (stream.take 16)).crypt_inplace
            ((stream.drop 16).take (min bufLen (stream.drop 16).length))).1,
          ((rc.ivInit md5 (stream.take 16)).crypt_inplace
            ((stream.drop 16).take (min bufLen (stream.drop 16).length))).2,
          (stream.drop 16).drop (min bufLen (stream.drop 16).length))) := by
  refine ⟨fun r h hlt => ?_, fun r h hge => ⟨?_, ?_⟩, fun r h => ?_,
    fun rc h hlt => ?_, fun rc h hge => ?_⟩
  · simp [CryptoRead.read, h, hlt]
  · have hn : ¬ stream.length < 16 := Nat.not_lt.mpr hge
    simp only [CryptoRead.read, h, Bool.false_eq_true, if_false, hn, ite_false,
      read_tail_eq]
  · simp [Rc4.crypt_inplace_length, List.length_take]
  · simp [CryptoRead.read, h]
  · simp [Rc4Reader.read, h, hlt]
  · have hn : ¬ stream.length < 16 := Nat.not_lt.mpr hge
    simp only [Rc4Reader.read, h, Bool.false_eq_true, if_false, hn, ite_false,
      reader_tail_eq]

/-- Witness for C4: a fresh reader over a 3-byte endpoint fails with an
I/O error instead of reporting EOF. -/
theorem C4_reader_iv_handling_witness :
    (CryptoRead.mk (Rc4.new [])).read (fun _ => []) [1, 2, 3] 4 = .error () :=
  (C4_reader_iv_handling (fun _ => []) [1, 2, 3] 4).1 (CryptoRead.mk (Rc4.new []))
    rfl (by decide)

/-- Claim C1, counterexample: a copy loop that terminates with a clean
zero-length copy result (EOF) shuts down neither socket, contradicting
the claim that either termination shuts down both sockets. -/
theorem C1_eof_no_shutdown :
    copyLoopEnd (.ok 0) = ⟨false, false⟩ ∧ copyLoopEnd (.ok 0) ≠ ⟨true, true⟩ := by
  exact ⟨rfl, by decide⟩

/-- Claim C1, amended: only a copy loop that terminates with an I/O error
shuts down both the upstream and the client socket (`Shutdown::Both` on
each); a loop that ends via clean EOF performs no shutdown at all. -/
theorem C1_shutdown_on_error_only :
    (∀ e : Unit, copyLoopEnd (.error e) = ⟨true, true⟩) ∧
    (∀ n : Nat, copyLoopEnd (.ok n) = ⟨false, false⟩) :=
  ⟨fun _ => rfl, fun _ => rfl⟩

/-- Claim C6: an IPv4 request (`ATYP = 1`) with address-and-port bytes
`[1,2,3,4,0,80]` after the 4-byte header parses to the endpoint
`1.2.3.4:80` with `raw_encoding = [1,1,2,3,4,0,80]`. -/
theorem C6_ipv4_parse (resolve : List Nat → Except Unit (List SockAddr)) :
    connectParse resolve [5, 1, 0, 1, 1, 2, 3, 4, 0, 80] =
      ⟨socksReply, .proxied ⟨.v4 1 2 3 4, 80⟩ [1, 1, 2, 3, 4, 0, 80]⟩ := rfl

/-- Claim C7: the code panics, rather than returning an error, on a
domain-name request whose resolution yields no endpoint: with a resolver
that returns an empty list, `connect` reaches the `unwrap` of `None`. -/
theorem C7_empty_resolution_panics :
    connectParse (fun _ => .ok []) [5, 1, 0, 3, 1, 120] = ⟨[], .panicked⟩ := rfl

/-- `read_exact` of the 4-byte request header always succeeds on a stream
holding at least four bytes. -/
theorem readExact_cons4 (v c r t : Nat) (rest : List Nat) :
    readExact 4 (v :: c :: r :: t :: rest) = .ok ([v, c, r, t], rest) := by
  have h : ¬ (v :: c :: r :: t :: rest).length < 4 := by
    simp only [List.length_cons]
    omega
  simp [readExact, h]

/-- Claim C9: for any address-type byte other than 1, 3 or 4, `connect`
writes the 10-byte success reply to the client and only then returns the
"not supported atype" error. -/
theorem C9_reply_precedes_atype_error
    (resolve : List Nat → Except Unit (List SockAddr)) (a : Nat)
    (rest : List Nat) (h1 : a ≠ 1) (h3 : a ≠ 3) (h4 : a ≠ 4) :
    connectParse resolve (5 :: 1 :: 0 :: a :: rest) =
      ⟨[5, 0, 0, 1, 0, 0, 0, 0, 0, 0], .err .notSupportedAtype⟩ := by
  simp [connectParse, readExact_cons4, socksReply, h1, h3, h4]

/-- Witness for C9 at address type 2. -/
theorem C9_reply_precedes_atype_error_witness :
    connectParse (fun _ => .ok []) [5, 1, 0, 2] =
      ⟨[5, 0, 0, 1, 0, 0, 0, 0, 0, 0], .err .notSupportedAtype⟩ :=
  C9_reply_precedes_atype_error (fun _ => .ok []) 2 [] (by decide) (by decide)
    (by decide)
